import Mathlib

/-!
Verification of the tipitaka-search ingestion pipeline.

This file gives a shallow embedding, in Lean 4, of the parts of the
repository that the frozen claims are about:

* `src/bilara_loader_dropin.py` — the Bilara flat-format loader
  (`seq_from_section`, `is_title_section`, `is_gatha_boundary`,
  `gather_segments` with its per-work context, merge policy and
  finalization pass);
* `src/index_tipitaka.py` — the XML ingester
  (`clean_paragraph_text`, the per-leaf paragraph loop of
  `docs_from_file`, `infer_banner`, the collection/basket fallbacks,
  `_int_from_subhead`, `_dn_number`, `_mn_number`, `_sn_number`,
  `_an_number` and `attach_canonical`).

Python strings are modelled as Lean `String`, Python `int` as `Int`
(or `Nat` where the source can only produce non-negative values),
Python `None`-able values as `Option`, and Python dicts (which preserve
insertion order) as insertion-ordered association lists.
-/

set_option maxRecDepth 10000

/-! ## Python string primitives -/

/-- Python `\s` / `str.strip()` whitespace (ASCII subset; the inputs the
claims touch contain no exotic Unicode whitespace). -/
def pyIsSpace (c : Char) : Bool :=
  c = ' ' ∨ c = '\t' ∨ c = '\n' ∨ c = '\r' ∨ c = '\x0b' ∨ c = '\x0c'

/-- Python `str.strip()`. -/
def pyStrip (s : String) : String :=
  ⟨(((s.data.dropWhile pyIsSpace).reverse.dropWhile pyIsSpace).reverse)⟩

def isDigitCh (c : Char) : Bool := '0' ≤ c ∧ c ≤ '9'

def isLowerCh (c : Char) : Bool := 'a' ≤ c ∧ c ≤ 'z'

def isAlphaCh (c : Char) : Bool := isLowerCh c ∨ ('A' ≤ c ∧ c ≤ 'Z')

/-- `[\d.]` character class. -/
def isDigitDot (c : Char) : Bool := isDigitCh c ∨ c = '.'

/-- `[a-z\-]` character class. -/
def isLowerHyph (c : Char) : Bool := isLowerCh c ∨ c = '-'

/-- `[a-z\-]` with `re.I`. -/
def isAlphaHyph (c : Char) : Bool := isAlphaCh c ∨ c = '-'

/-- `[0-9a-z.\-]` character class (second group of `SEG_KEY_RE`). -/
def isSegSectionCh (c : Char) : Bool :=
  isDigitCh c ∨ isLowerCh c ∨ c = '.' ∨ c = '-'

def digitsVal (cs : List Char) : Nat :=
  cs.foldl (fun a c => a * 10 + (c.toNat - '0'.toNat)) 0

/-- Python `int(s)` on a string: strip whitespace, optional sign, one or
more digits; anything else raises (here: `none`).  (Underscore digit
grouping is not modelled; no input reaching `int` here can contain `_`.) -/
def pyInt? (s : String) : Option Int :=
  let t := (pyStrip s).data
  match t with
  | [] => none
  | c :: rest =>
      let (sign, digits) : Int × List Char :=
        if c = '-' then (-1, rest) else if c = '+' then (1, rest) else (1, t)
      if digits ≠ [] ∧ digits.all isDigitCh then
        some (sign * (digitsVal digits : Int))
      else none


/-- Python `str.split(sep)` for a single-character separator (structural,
so that proofs can evaluate it): `"".split` gives `[""]`, empty chunks
are kept. -/
def pySplitAux (sep : Char) : List Char → List Char → List (List Char)
  | [], acc => [acc.reverse]
  | c :: rest, acc =>
      if c = sep then acc.reverse :: pySplitAux sep rest []
      else pySplitAux sep rest (c :: acc)

def pySplit (s : String) (sep : Char) : List String :=
  (pySplitAux sep s.data []).map fun cs => ⟨cs⟩

/-- Python `sep.join(vals)`. -/
def pyJoin (sep : String) : List String → String
  | [] => ""
  | [x] => x
  | x :: rest => x ++ sep ++ pyJoin sep rest

/-- `str.startswith` / `str.endswith`. -/
def strStarts (s pre : String) : Bool := pre.data.isPrefixOf s.data

def strEnds (s suf : String) : Bool := suf.data.isSuffixOf s.data

/-- Python `str.lower()`, restricted to ASCII plus the uppercase
diacritics occurring in this code base's heuristics. -/
def pyLowerChar (c : Char) : Char :=
  match c with
  | 'Ā' => 'ā' | 'Ī' => 'ī' | 'Ū' => 'ū' | 'Ṅ' => 'ṅ' | 'Ñ' => 'ñ'
  | 'Ṭ' => 'ṭ' | 'Ḍ' => 'ḍ' | 'Ṇ' => 'ṇ' | 'Ḷ' => 'ḷ' | 'Ṁ' => 'ṁ'
  | 'Ṃ' => 'ṃ'
  | c => c.toLower

def pyLower (s : String) : String := ⟨s.data.map pyLowerChar⟩

/-- Python `str.upper()`, ASCII plus the diacritics of `ASCII_MAP`. -/
def pyUpperChar (c : Char) : Char :=
  match c with
  | 'ā' => 'Ā' | 'ī' => 'Ī' | 'ū' => 'Ū' | 'ṅ' => 'Ṅ' | 'ñ' => 'Ñ'
  | 'ṭ' => 'Ṭ' | 'ḍ' => 'Ḍ' | 'ṇ' => 'Ṇ' | 'ḷ' => 'Ḷ' | 'ṁ' => 'Ṁ'
  | 'ṃ' => 'Ṃ'
  | c => c.toUpper

def pyUpper (s : String) : String := ⟨s.data.map pyUpperChar⟩

/-- Python `needle in haystack` substring test. -/
def listContainsSub (needle : List Char) : List Char → Bool
  | [] => needle = []
  | c :: rest => needle.isPrefixOf (c :: rest) || listContainsSub needle rest

def strContains (haystack needle : String) : Bool :=
  listContainsSub needle.data haystack.data

/-- `os.path.basename` (POSIX). -/
def pyBasename (s : String) : String :=
  (pySplit s '/').getLastD s

/-! ## `bilara_loader_dropin.py` : section keys and sequence numbers -/

/-- `section.split(".")` with each part through `int` — the list
comprehension inside `seq_from_section`; `none` models the `except`. -/
def sectionParts (sec : String) : Option (List Int) :=
  ((pySplit sec '.').map pyInt?).foldr
    (fun x acc => match x, acc with
      | some v, some l => some (v :: l)
      | _, _ => none)
    (some [])

/-- The packing coefficients of `seq_from_section`
(`coeff = [1000000, 1000, 10, 1]`). -/
def seqCoeff : List Int := [1000000, 1000, 10, 1]

def weightedSeq : List Int → List Int → Int
  | _, [] => 0
  | [], _ => 0
  | co :: cos, p :: ps => co * p + weightedSeq cos ps

/-- `seq_from_section` from `bilara_loader_dropin.py`: map a dotted
section to a sortable integer, packing up to 4 levels with coefficients
1000000/1000/10/1; unparsable sections map to 0. -/
def seq_from_section (sec : String) : Int :=
  match sectionParts sec with
  | none => 0
  | some parts => weightedSeq seqCoeff (parts.take 4)

/-- `is_title_section`: sections `0.*` are title/heading segments. -/
def is_title_section (sec : String) : Bool :=
  strStarts sec "0."

/-- `is_gatha_boundary`: a non-title section whose key ends with `.1`. -/
def is_gatha_boundary (sec : String) : Bool :=
  (!is_title_section sec) && strEnds sec ".1"

/-- `SEG_KEY_RE = ^([a-z\-]+[\d\.]+):([0-9][0-9a-z\.\-]*)$`.
Both character classes exclude `:`, so a match requires exactly one
colon; the work-id part is a non-empty `[a-z\-]` run followed by a
non-empty `[\d.]` run (the classes are disjoint, so backtracking cannot
produce any other split). -/
def segKeyMatch (key : String) : Option (String × String) :=
  match pySplit key ':' with
  | [w, sec] =>
      let l := w.data.takeWhile isLowerHyph
      let d := w.data.dropWhile isLowerHyph
      if l ≠ [] ∧ d ≠ [] ∧ d.all isDigitDot then
        match sec.data with
        | [] => none
        | c :: rest =>
            if isDigitCh c ∧ rest.all isSegSectionCh then some (w, sec)
            else none
      else none
  | _ => none

/-- `SPLIT_SCHEME_RE = ^([a-z\-]+?)([\d\.]+)$` (case-insensitive) applied
by `split_scheme_and_number`; the classes are disjoint so the lazy
quantifier is immaterial. -/
def split_scheme_and_number (work_id : String) : Option String × Option String :=
  let l := work_id.data.takeWhile isAlphaHyph
  let d := work_id.data.dropWhile isAlphaHyph
  if l ≠ [] ∧ d ≠ [] ∧ d.all isDigitDot then
    (some (pyUpper ⟨l⟩), some ⟨d⟩)
  else (none, none)

/-- `FILENAME_WORK_RE.search` on the lowered basename: the first position
admitting `[a-z\-]+[\d.]+`; disjoint classes again make the greedy match
the run-pair at that position. -/
def filenameWorkSearch : List Char → Option String
  | [] => none
  | c :: rest =>
      let l := (c :: rest).takeWhile isLowerHyph
      let d := ((c :: rest).dropWhile isLowerHyph).takeWhile isDigitDot
      if l ≠ [] ∧ d ≠ [] then some ⟨l ++ d⟩
      else filenameWorkSearch rest

/-- `parse_work_id_from_filename`. -/
def parse_work_id_from_filename (filename : String) : Option String :=
  filenameWorkSearch (pyLower (pyBasename filename)).data

/-- `infer_variant_from_path`: (layer, lang, translator) from the path
components. -/
def infer_variant_from_path (path : String) :
    String × Option String × Option String :=
  let parts := pySplit ⟨path.data.map fun c => if c = '\\' then '/' else c⟩ '/' 
  if parts.contains "root" then ("root", some "pli", none)
  else if parts.contains "translation" then
    match parts.dropWhile (· ≠ "translation") with
    | _ :: lang :: translator :: _ => ("translation", some lang, some translator)
    | _ :: lang :: _ => ("translation", some lang, none)
    | _ => ("translation", none, none)
  else ("unknown", none, none)

/-! ## `bilara_loader_dropin.py` : work-id driven metadata -/

/-- `KN_PREFIXES` (collections inside the Khuddaka Nikaya). -/
def knPrefixes : List String :=
  ["kp", "dhp", "ud", "iti", "snp", "vv", "pv", "thag", "thig", "ja", "ap", "bv"]

/-- `VERSE_Y_WORK_PREFIX` (work prefixes considered verse-oriented). -/
def verseWorkPrefixes : List String := ["snp", "thag", "thig", "vv", "pv", "dhp"]

/-- `infer_basket_collection_from_work`. -/
def infer_basket_collection_from_work (work_id : String) (scheme : Option String) :
    Option String × Option String :=
  let wid := pyLower work_id
  let scm := pyUpper (scheme.getD "")
  if scm = "DN" ∨ scm = "MN" ∨ scm = "SN" ∨ scm = "AN" then (some "sutta", some scm)
  else
    let pre : String := ⟨wid.data.takeWhile isLowerCh⟩
    if knPrefixes.contains pre ∨ scm = "KN" then (some "sutta", some "KN")
    else if strStarts wid "pli-tv-" ∨ strStarts scm "PLI-TV" then
      (some "vinaya", some "VIN")
    else if ["dhs","vibh","kvu","pug","yam","yp","patthana","abh"].contains pre ∨ scm = "ABH" then
      (some "abhidhamma", some "ABH")
    else (none, none)

/-- `parse_division_chapter`: `pli-tv-([a-z]+)(\d+)` anchored at the
start (trailing characters permitted by `re.match`). -/
def parse_division_chapter (work_id : String) : Option String × Option Nat :=
  let wid := pyLower work_id
  if strStarts wid "pli-tv-" then
    let rest := wid.data.drop 7
    let l := rest.takeWhile isLowerCh
    let ds := (rest.dropWhile isLowerCh).takeWhile isDigitCh
    if l ≠ [] ∧ ds ≠ [] then (some (pyUpper ⟨l⟩), some (digitsVal ds))
    else (none, none)
  else (none, none)

/-- `base_sutta_id`: the work id itself when it is
`^(mn|dn|sn|an)[\d.]+$` or a `KN_PREFIXES` member followed by `[\d.]+`;
the leading letter run determines the only possible alternative. -/
def base_sutta_id (work_id : String) : Option String :=
  let wid := pyLower work_id
  let l : String := ⟨wid.data.takeWhile isLowerCh⟩
  let d := wid.data.dropWhile isLowerCh
  if (l = "mn" ∨ l = "dn" ∨ l = "sn" ∨ l = "an" ∨ knPrefixes.contains l)
      ∧ d ≠ [] ∧ d.all isDigitDot then
    some wid
  else none

/-- `^\d+(\.\d+)*$`: non-empty dot-separated groups of digits. -/
def numDotted (cs : List Char) : Bool :=
  (pySplit ⟨cs⟩ '.').all fun p => p ≠ "" && p.data.all isDigitCh

/-- `re.search(r"(\d+(?:\.\d+)*)$", s)`: the leftmost suffix of the
string that is entirely `\d+(\.\d+)*`. -/
def searchNumSuffix : List Char → Option (List Char)
  | [] => none
  | c :: rest =>
      if numDotted (c :: rest) then some (c :: rest) else searchNumSuffix rest

/-- The `sutta_num` extraction in `gather_segments`: trailing numeric
group of the sutta id, last dotted component, through `int`. -/
def suttaNumOf (sutta_id : Option String) : Option Int :=
  match sutta_id with
  | none => none
  | some sid =>
      match searchNumSuffix sid.data with
      | none => none
      | some tail => pyInt? ((pySplit ⟨tail⟩ '.').getLastD "")

/-! ## `bilara_loader_dropin.py` : gather_segments -/

/-- One nested variant entry (root/translation layer). -/
structure BVariant where
  layer : String
  lang : Option String
  translator : Option String
  text : String
  source_file : String
  deriving Repr, DecidableEq

/-- One merged segment document, with the fields built by
`gather_segments`. -/
structure BSeg where
  segment_id : String
  segment_num : String
  seq : Int
  is_title : Bool
  basket : Option String
  collection : Option String
  sutta : Option String
  sutta_num : Option Int
  vagga : Option String
  division_code : Option String
  division_num : Option Nat
  translator : Option String
  lang : Option String
  text : Option String
  is_gatha : Bool
  gatha_no : Option Nat
  gatha_line : Option Nat
  titles : List (String × String)
  variants : List BVariant
  deriving Repr, DecidableEq

/-- The per-work mutable context of `gather_segments`. -/
structure WorkCtx where
  last_titles : List (String × String)
  gatha_no : Nat
  gatha_line : Nat
  last_boundary_seen : Bool
  likely_verse : Bool
  deriving Repr, DecidableEq

/-- Lookup in an insertion-ordered association list (Python dict read). -/
def assocGet {α : Type} (l : List (String × α)) (k : String) : Option α :=
  (l.find? (fun kv => kv.1 = k)).map (fun kv => kv.2)

/-- Write to an insertion-ordered association list: update in place if
the key exists, else append (Python dict write). -/
def assocSet {α : Type} : List (String × α) → String → α → List (String × α)
  | [], k, v => [(k, v)]
  | (k', v') :: rest, k, v =>
      if k' = k then (k, v) :: rest else (k', v') :: assocSet rest k v

/-- The fresh context built by the `work_context.setdefault` call. -/
def ctxFresh (key_work_id : String) : WorkCtx :=
  { last_titles := []
    gatha_no := 0
    gatha_line := 0
    last_boundary_seen := false
    likely_verse :=
      verseWorkPrefixes.contains
        ((pySplit ((base_sutta_id key_work_id).getD "") '.').headD "") }

/-- Title tracking plus gāthā tracking, as performed on the per-work
context for one segment. -/
def ctxStep (title_flag : Bool) (sec text : String) (ctx : WorkCtx) : WorkCtx :=
  let ctx :=
    if title_flag then { ctx with last_titles := assocSet ctx.last_titles sec text }
    else ctx
  if is_gatha_boundary sec then { ctx with gatha_no := ctx.gatha_no + 1, gatha_line := 1 }
  else if ctx.gatha_no > 0 ∧ ¬ title_flag then { ctx with gatha_line := ctx.gatha_line + 1 }
  else ctx

/-- `[{"section": k, "text": v} for k, v in sorted(ctx["last_titles"].items(), ...)]`. -/
def titlesSnapshot (ctx : WorkCtx) : List (String × String) :=
  ctx.last_titles.mergeSort (fun a b => a.1 ≤ b.1)

/-- The title keys and keywords of the best-effort vagga derivation. -/
def vaggaNeedles : List String :=
  ["vagga", "chapter", "nipāta", "saṁyutta", "saṃyutta", "paññāsa", "paṇṇāsa"]

def vaggaFind (titles : List (String × String)) : Option String :=
  ["0.2", "0.3", "0.4"].findSome? fun k =>
    match assocGet titles k with
    | some t =>
        if t ≠ "" ∧ vaggaNeedles.any (fun w => strContains (pyLower t) w) then some t
        else none
    | none => none

def vaggaStep (ctx : WorkCtx) (doc : BSeg) : BSeg :=
  if doc.vagga.getD "" = "" then
    match vaggaFind ctx.last_titles with
    | some t => { doc with vagga := some (pyStrip t) }
    | none => doc
  else doc

/-- The document created for a previously unseen segment id. -/
def createDoc (layer : String) (lang translator : Option String)
    (seg_id sec text : String) (seq : Int) (title_flag : Bool)
    (basket collection sutta_id : Option String) (sutta_num : Option Int)
    (division_code : Option String) (division_num : Option Nat)
    (ctx : WorkCtx) : BSeg :=
  { segment_id := seg_id
    segment_num := sec
    seq := seq
    is_title := title_flag
    basket := basket
    collection := collection
    sutta := sutta_id
    sutta_num := sutta_num
    vagga := none
    division_code := division_code
    division_num := division_num
    translator := if layer = "translation" then translator else none
    lang := lang          -- `lang if layer != None else None`: layer is never None
    text := if layer = "translation" then some text else none
    is_gatha := ctx.gatha_no > 0 ∨ ctx.likely_verse
    gatha_no := if ctx.gatha_no > 0 then some ctx.gatha_no else none
    gatha_line := if ctx.gatha_no > 0 then some ctx.gatha_line else none
    titles := titlesSnapshot ctx
    variants := [] }

/-- The merge applied to an already-known segment id: fill still-null
translator/lang/text (translation-layer preferred), refresh verse
metadata and the title snapshot. -/
def mergeDoc (layer : String) (lang translator : Option String) (text : String)
    (ctx : WorkCtx) (doc : BSeg) : BSeg :=
  let doc :=
    if doc.translator = none ∧ layer = "translation" then
      { doc with translator := translator } else doc
  let doc :=
    if doc.lang = none ∧ lang ≠ none then { doc with lang := lang } else doc
  let doc :=
    if doc.text = none ∧ layer = "translation" then
      { doc with text := some text } else doc
  { doc with
      is_gatha := ctx.gatha_no > 0 ∨ ctx.likely_verse
      gatha_no := if ctx.gatha_no > 0 then some ctx.gatha_no else none
      gatha_line := if ctx.gatha_no > 0 then some ctx.gatha_line else none
      titles := titlesSnapshot ctx }

/-- The loop-carried state of `gather_segments` (the two dicts plus the
file-scope `scheme`/`work_number` variables, which the loop reassigns). -/
structure GatherSt where
  segments : List (String × BSeg)
  work_context : List (String × WorkCtx)
  scheme : Option String
  work_number : Option String
  deriving Repr, DecidableEq

/-- Processing of a single `(seg_id, text)` item of one file's mapping. -/
def processEntry (layer : String) (lang translator : Option String)
    (fname_work_id : Option String) (fp : String)
    (st : GatherSt) (entry : String × String) : GatherSt :=
  match segKeyMatch entry.1 with
  | none => st
  | some (key_work_id, sec) =>
      let text := entry.2
      let (scheme, work_number) :=
        if fname_work_id.isSome ∧ fname_work_id ≠ some key_work_id then
          split_scheme_and_number key_work_id
        else (st.scheme, st.work_number)
      let (basket, collection) := infer_basket_collection_from_work key_work_id scheme
      let sutta_id := base_sutta_id key_work_id
      let sutta_num := suttaNumOf sutta_id
      let (division_code, division_num) := parse_division_chapter key_work_id
      let title_flag := is_title_section sec
      let seq := seq_from_section sec
      let ctx0 := (assocGet st.work_context key_work_id).getD (ctxFresh key_work_id)
      let ctx1 := ctxStep title_flag sec text ctx0
      let doc0 :=
        match assocGet st.segments entry.1 with
        | none =>
            createDoc layer lang translator entry.1 sec text seq title_flag
              basket collection sutta_id sutta_num division_code division_num ctx1
        | some doc => mergeDoc layer lang translator text ctx1 doc
      let doc1 := vaggaStep ctx1 doc0
      let doc2 :=
        { doc1 with
            variants := doc1.variants ++
              [{ layer := layer, lang := lang, translator := translator,
                 text := text, source_file := pyBasename fp }] }
      { segments := assocSet st.segments entry.1 doc2
        work_context := assocSet st.work_context key_work_id ctx1
        scheme := scheme
        work_number := work_number }

/-- One input file of the flat Bilara format: its path and its key/value
mapping in iteration order. -/
structure BFile where
  path : String
  entries : List (String × String)
  deriving Repr, DecidableEq

def processFile (st : GatherSt) (f : BFile) : GatherSt :=
  let (layer, lang, translator) := infer_variant_from_path f.path
  let fname_work_id := parse_work_id_from_filename f.path
  let (scheme0, work_number0) := split_scheme_and_number (fname_work_id.getD "")
  f.entries.foldl
    (processEntry layer lang translator fname_work_id f.path)
    { segments := st.segments, work_context := st.work_context,
      scheme := scheme0, work_number := work_number0 }

/-- `for v in variants: if v.get(field): pick; break` — first variant
with a truthy (non-`None`, non-empty) value. -/
def firstTruthySome (f : BVariant → Option String) : List BVariant → Option String
  | [] => none
  | v :: rest =>
      match f v with
      | some s => if s ≠ "" then some s else firstTruthySome f rest
      | none => firstTruthySome f rest

/-- First variant with a non-empty `text` (variant text is always a
string in the flat format). -/
def firstNonEmptyText : List BVariant → Option String
  | [] => none
  | v :: rest => if v.text ≠ "" then some v.text else firstNonEmptyText rest

/-- The finalization pass of `gather_segments` on one document. -/
def postFillDoc (doc : BSeg) : BSeg :=
  let doc :=
    if doc.translator = none then
      { doc with translator := firstTruthySome (fun v => v.translator) doc.variants }
    else doc
  let doc :=
    if doc.lang = none then
      { doc with lang := firstTruthySome (fun v => v.lang) doc.variants }
    else doc
  if doc.text = none then { doc with text := firstNonEmptyText doc.variants }
  else doc

/-- `gather_segments`: fold all files through the merge loop, then run
the finalization pass over every accumulated document. -/
def gather_segments (files : List BFile) : List (String × BSeg) :=
  let st := files.foldl processFile
    { segments := [], work_context := [], scheme := none, work_number := none }
  st.segments.map fun kv => (kv.1, postFillDoc kv.2)

/-- The diagnostic output of `gather_segments`: the function body
contains no `print`/logging call at all (skipped keys are dropped by a
bare `continue`), so its log is empty on every input. -/
def gather_segments_log (_files : List BFile) : List String := []

/-! ## `index_tipitaka.py` : helpers -/

/-- `ASCII_MAP` / `to_ascii`: fold the listed diacritics (note that the
table maps `ṁ`/`Ṁ` but not `ṃ`/`Ṃ`). -/
def toAsciiChar (c : Char) : Char :=
  match c with
  | 'ā' => 'a' | 'ī' => 'i' | 'ū' => 'u' | 'ṅ' => 'n' | 'ñ' => 'n'
  | 'ṭ' => 't' | 'ḍ' => 'd' | 'ṇ' => 'n' | 'ḷ' => 'l' | 'ṁ' => 'm'
  | 'Ā' => 'A' | 'Ī' => 'I' | 'Ū' => 'U' | 'Ṅ' => 'N' | 'Ñ' => 'N'
  | 'Ṭ' => 'T' | 'Ḍ' => 'D' | 'Ṇ' => 'N' | 'Ḷ' => 'L' | 'Ṁ' => 'M'
  | c => c

def to_ascii (s : String) : String := ⟨s.data.map toAsciiChar⟩

/-- One `re.sub` pass of `_norm`'s first pattern
`(samyuttaṃ?|samyutta|sam yutta)` → `""`: non-overlapping left-to-right
removal without rescanning, optionally consuming a trailing `ṃ`. -/
def subSamyutta : List Char → List Char
  | [] => []
  | c :: rest =>
      if "samyutta".data.isPrefixOf (c :: rest) then
        let k := if ((c :: rest).drop 8).head? = some 'ṃ' then 9 else 8
        subSamyutta ((c :: rest).drop k)
      else if "sam yutta".data.isPrefixOf (c :: rest) then
        subSamyutta ((c :: rest).drop 9)
      else
        c :: subSamyutta rest
  termination_by cs => cs.length
  decreasing_by
    · simp only [List.length_drop]
      split <;> simp <;> omega
    · simp only [List.length_drop]
      simp
      omega
    · simp

/-- One `re.sub` pass of `_norm`'s second pattern `(nipataṃ?|nipata)`. -/
def subNipata : List Char → List Char
  | [] => []
  | c :: rest =>
      if "nipata".data.isPrefixOf (c :: rest) then
        let k := if ((c :: rest).drop 6).head? = some 'ṃ' then 7 else 6
        subNipata ((c :: rest).drop k)
      else
        c :: subNipata rest
  termination_by cs => cs.length
  decreasing_by
    · simp only [List.length_drop]
      split <;> simp <;> omega
    · simp

/-- `_norm`: diacritic fold, lower, strip the saṃyutta/nipāta stopwords,
keep only `[a-z0-9]`. -/
def pyNorm (s : Option String) : String :=
  match s with
  | none => ""
  | some s =>
      if s = "" then ""
      else
        let t := pyLower (to_ascii s)
        let t := subSamyutta t.data
        let t := subNipata t
        ⟨t.filter fun c => isLowerCh c || isDigitCh c⟩

/-- `_int_from_subhead`: `re.match(r"\s*(\d+)", to_ascii(subhead))`. -/
def _int_from_subhead (subhead : Option String) : Option Nat :=
  match subhead with
  | none => none
  | some s =>
      if s = "" then none   -- `if not subhead`
      else
        let t := (to_ascii s).data.dropWhile pyIsSpace
        let ds := t.takeWhile isDigitCh
        if ds ≠ [] then some (digitsVal ds) else none

/-- One node of a hierarchy chain: `{type, id, head}` as built by
`build_div_path`. -/
structure HNode where
  type : Option String
  id : Option String
  head : Option String
  deriving Repr, DecidableEq

/-! ## `index_tipitaka.py` : canonical numbering -/

/-- The fixed DN part sizes `counts = [13,10,11]`. -/
def dnCounts : List Nat := [13, 10, 11]

/-- The first hierarchy node whose id fully matches `dn[123]`. -/
def dnVagga (hierarchy : List HNode) : Option Nat :=
  hierarchy.findSome? fun n =>
    let i := pyLower (n.id.getD "")
    if i = "dn1" then some 1
    else if i = "dn2" then some 2
    else if i = "dn3" then some 3
    else none

/-- `_dn_number`. -/
def _dn_number (hierarchy : List HNode) (s_idx : Option Nat) : Option Nat :=
  match dnVagga hierarchy, s_idx with
  | some vagga, some s =>
      if s = 0 then none      -- `if not vagga or not s_idx`
      else if s < 1 ∨ s > dnCounts.getD (vagga - 1) 0 then none
      else some ((dnCounts.take (vagga - 1)).sum + s)
  | _, _ => none

/-- `re.fullmatch(r"mn(\d+)_(\d+)", i)`. -/
def mnBookVagga (i : String) : Option (Nat × Nat) :=
  if strStarts i "mn" then
    let rest := i.data.drop 2
    let ds1 := rest.takeWhile isDigitCh
    let after := rest.dropWhile isDigitCh
    match after with
    | '_' :: rest2 =>
        if ds1 ≠ [] ∧ rest2 ≠ [] ∧ rest2.all isDigitCh then
          some (digitsVal ds1, digitsVal rest2)
        else none
    | _ => none
  else none

/-- `_mn_number`: scan all nodes, `mn[123]` sets the book, `mn(\d+)_(\d+)`
sets book and vagga (last match wins for each). -/
def _mn_number (hierarchy : List HNode) (s_idx : Option Nat) : Option Nat :=
  let bv := hierarchy.foldl
    (fun (acc : Option Nat × Option Nat) n =>
      let i := pyLower (n.id.getD "")
      let acc :=
        if i = "mn1" then (some 1, acc.2)
        else if i = "mn2" then (some 2, acc.2)
        else if i = "mn3" then (some 3, acc.2)
        else acc
      match mnBookVagga i with
      | some (b, v) => (some b, some v)
      | none => acc)
    (none, none)
  match bv.1, bv.2, s_idx with
  | some book, some vagga, some s =>
      if book = 0 ∨ vagga = 0 ∨ s = 0 then none  -- `if not (book and vagga and s_idx)`
      else some ((book - 1) * 50 + (vagga - 1) * 10 + s)
  | _, _, _ => none

/-- `SN_SAMYUTTA_TO_NO` in insertion order. -/
def snSamyuttaToNo : List (String × Nat) :=
  [("devata", 1), ("devaputta", 2), ("kosala", 3), ("mara", 4), ("bhikkhuni", 5),
   ("khandha", 22), ("radha", 23), ("ditthi", 24),
   ("salayatana", 35), ("vedana", 36)]

/-- `_sn_number`: first node whose type or folded head contains
"samyutta"; look its normalized head up in the saṃyutta table. -/
def _sn_number (hierarchy : List HNode) (s_idx : Option Nat) : Option String :=
  let sam := hierarchy.find? fun n =>
    let t := pyLower (n.type.getD "")
    let h := n.head.getD ""
    strContains t "samyutta" || strContains (pyLower (to_ascii h)) "samyutta"
  match sam, s_idx with
  | some n, some s =>
      if s = 0 then none
      else
        match assocGet snSamyuttaToNo (pyNorm n.head) with
        | some s_no => some (toString s_no ++ "." ++ toString s)
        | none => none
  | _, _ => none

/-- `AN_NIPATA_HEAD_TO_NO` in insertion order. -/
def anNipataHeadToNo : List (String × Nat) :=
  [("eka", 1), ("duka", 2), ("tika", 3), ("catukka", 4), ("pancaka", 5),
   ("chakka", 6), ("sattaka", 7), ("atthaka", 8), ("navaka", 9),
   ("dasaka", 10), ("ekadasaka", 11)]

/-- `_an_number`: first node with id fully matching `an(\d+)` (the scan
breaks there even when the parsed number is 0); if the result is falsy
(`if not nip:` — absent *or* 0), retry with the first node whose
normalized head starts with a nipāta stem (stems tried in table order),
keeping the old falsy value when that fallback finds nothing. -/
def _an_number (hierarchy : List HNode) (s_idx : Option Nat) : Option String :=
  let nip := hierarchy.findSome? fun n =>
    let i := pyLower (n.id.getD "")
    if strStarts i "an" then
      let rest := i.data.drop 2
      if rest ≠ [] ∧ rest.all isDigitCh then some (digitsVal rest) else none
    else none
  let nip :=
    if nip.getD 0 = 0 then   -- `if not nip:` (None or 0)
      match hierarchy.findSome? fun n =>
          let h := pyNorm n.head
          anNipataHeadToNo.findSome? fun sn =>
            if strStarts h sn.1 then some sn.2 else none with
      | some v => some v
      | none => nip
    else nip
  match nip, s_idx with
  | some v, some s =>
      if v = 0 ∨ s = 0 then none   -- `if (nip and s_idx)`
      else some (toString v ++ "." ++ toString s)
  | _, _ => none

/-! ## `index_tipitaka.py` : documents and canonical attachment -/

/-- One collected page-break marker (`{"ed": ..., "n": ...}`). -/
structure PbMark where
  ed : Option String
  n : Option String
  deriving Repr, DecidableEq

/-- One per-paragraph output document of `docs_from_file` (the dict
literal built in the paragraph loop). -/
structure TipDoc where
  basket : Option String
  collection : Option String
  text_layer : String
  book : Option String
  chapter : Option String
  title : Option String
  subhead : Option String
  hierarchy : List HNode
  canonical_scheme : Option String
  canonical_ref : Option String
  work_id : Option String
  div_id : String
  segment_id : String
  order : Nat
  para_no : Option String
  rend : Option String
  edition_pages : List PbMark
  lang : String
  text : String
  html : String
  source_file : String
  source_path : String
  deriving Repr, DecidableEq

/-- `attach_canonical`: set `canonical_scheme`/`canonical_ref` when the
per-collection resolver produces a (truthy) value; otherwise leave the
document untouched.  Total by construction — every missing intermediate
value flows through `Option` into the "leave unchanged" branch. -/
def attach_canonical (doc : TipDoc) : TipDoc :=
  let hier := doc.hierarchy
  let s_idx := _int_from_subhead doc.subhead
  if doc.collection = some "DN" then
    match _dn_number hier s_idx with
    | some n =>
        if n ≠ 0 then
          { doc with canonical_scheme := some "DN",
                     canonical_ref := some ("DN " ++ toString n) }
        else doc
    | none => doc
  else if doc.collection = some "MN" then
    match _mn_number hier s_idx with
    | some n =>
        if n ≠ 0 then
          { doc with canonical_scheme := some "MN",
                     canonical_ref := some ("MN " ++ toString n) }
        else doc
    | none => doc
  else if doc.collection = some "SN" then
    match _sn_number hier s_idx with
    | some n =>
        if n ≠ "" then
          { doc with canonical_scheme := some "SN",
                     canonical_ref := some ("SN " ++ n) }
        else doc
    | none => doc
  else if doc.collection = some "AN" then
    match _an_number hier s_idx with
    | some n =>
        if n ≠ "" then
          { doc with canonical_scheme := some "AN",
                     canonical_ref := some ("AN " ++ n) }
        else doc
    | none => doc
  else doc

/-! ## `index_tipitaka.py` : paragraph extraction -/

/-- One `<p>` node of a leaf div, with the attributes and embedded data
the extractor reads: the `@n` attribute, the raw texts of embedded
`hi[@rend='paranum']` markers, the joined `itertext()`, the `@rend`
attribute and the serialized form used for the `html` field. -/
structure Para where
  n : Option String
  paranums : List String
  text : String
  rend : Option String
  html : String
  deriving Repr, DecidableEq

/-- `[\.·•:]` — the optional punctuation after a paragraph number. -/
def isParaPunct (c : Char) : Bool :=
  c = '.' ∨ c = '·' ∨ c = '•' ∨ c = ':'

/-- Greedy `^\s*` followed by the escaped literal number: try the
longest whitespace prefix first, backtracking as `re` would.  Returns
the remainder after the literal. -/
def litTry (num s : List Char) : Nat → Option (List Char)
  | 0 => if num.isPrefixOf s then some (s.drop num.length) else none
  | k + 1 =>
      if num.isPrefixOf (s.drop (k + 1)) then some ((s.drop (k + 1)).drop num.length)
      else litTry num s k

def litAfterWs (num s : List Char) : Option (List Char) :=
  litTry num s (s.takeWhile pyIsSpace).length

/-- The tail `\s*[\.·•:]?\s+` of `clean_paragraph_text`'s pattern,
with `re`'s greedy/backtracking semantics: consume the whitespace run;
if a punctuation character follows and is itself followed by whitespace,
consume those too; otherwise the whitespace run must be non-empty. -/
def matchTail (s : List Char) : Option (List Char) :=
  let w := s.takeWhile pyIsSpace
  let rest := s.dropWhile pyIsSpace
  match rest with
  | c :: r =>
      if isParaPunct c ∧ r.takeWhile pyIsSpace ≠ [] then
        some (r.dropWhile pyIsSpace)
      else if w ≠ [] then some rest else none
  | [] => if w ≠ [] then some [] else none

/-- `pat.sub("", raw, count=1)` for
`pat = ^\s*{re.escape(para_no)}\s*[\.·•:]?\s+`: remove the leading
match once if there is one. -/
def stripParaNumOnce (num raw : String) : String :=
  match (litAfterWs num.data raw.data).bind matchTail with
  | some rem => ⟨rem⟩
  | none => raw

/-- `nums[0].strip() or None` fallback of the paragraph number. -/
def paranumFallback (p : Para) : Option String :=
  match p.paranums.head? with
  | some t => let t' := pyStrip t; if t' ≠ "" then some t' else none
  | none => none

/-- `clean_paragraph_text`: paragraph number from `@n` (if truthy) or
from the first embedded `paranum` marker; strip one leading occurrence
of that number from the stripped text. -/
def clean_paragraph_text (p : Para) : Option String × String :=
  let para_no : Option String :=
    match p.n with
    | some s => if s ≠ "" then some s else paranumFallback p
    | none => paranumFallback p
  let raw := pyStrip p.text
  match para_no with
  | some num => (some num, pyStrip (stripParaNumOnce num raw))
  | none => (none, raw)

/-- A child item of a leaf div as the extractor sees it: a paragraph or
a page-break marker. -/
inductive LeafItem where
  | par (p : Para)
  | pb (ed : Option String) (n : Option String)
  deriving Repr, DecidableEq

/-- Python `a or b` on an optional string against a string default. -/
def pyOrD (a : Option String) (b : String) : String :=
  match a with
  | some s => if s ≠ "" then s else b
  | none => b

/-- `f"{order:04d}"`. -/
def pad4 (n : Nat) : String :=
  let s := toString n
  ⟨List.replicate (4 - s.length) '0'⟩ ++ s

/-- The per-leaf inputs of the paragraph loop of `docs_from_file`
(everything computed before `for p in leaf.xpath(".//p")`). -/
structure LeafEnv where
  layer : String
  basket : Option String
  collection : Option String
  book : Option String
  chapter : Option String
  leafId : String
  headTitle : Option String
  subhead : Option String
  divPath : List HNode
  path : String
  deriving Repr, DecidableEq

/-- The document dict built for one kept paragraph, with
`attach_canonical` applied. -/
def mkParaDoc (env : LeafEnv) (p : Para) (para_no : Option String)
    (text : String) (order : Nat) (pending : List PbMark) : TipDoc :=
  attach_canonical
    { basket := env.basket
      collection := env.collection
      text_layer := env.layer
      book := env.book
      chapter := env.chapter
      title := env.headTitle
      subhead := env.subhead
      hierarchy := env.divPath
      canonical_scheme := none
      canonical_ref := none
      work_id := none
      div_id := env.leafId
      segment_id := env.leafId ++ ".p." ++
        (match para_no with | some num => num | none => pad4 order)
      order := order
      para_no := para_no
      rend := p.rend
      edition_pages := pending
      lang := "pi-Latn"
      text := text
      html := p.html
      source_file := pyBasename env.path
      source_path := env.path }

/-- The paragraph loop of `docs_from_file` over one leaf's items, with
`collect_preceding_pbs` realized by carrying the page breaks seen since
the previous paragraph.  `order` counts every paragraph; paragraphs
whose cleaned text is empty are dropped. -/
def paragraphDocs (env : LeafEnv) : List LeafItem → Nat → List PbMark → List TipDoc
  | [], _, _ => []
  | .pb ed n :: rest, order, pending =>
      paragraphDocs env rest order (pending ++ [⟨ed, n⟩])
  | .par p :: rest, order, pending =>
      let order' := order + 1
      let pn := clean_paragraph_text p
      if pn.2 = "" then paragraphDocs env rest order' []
      else mkParaDoc env p pn.1 pn.2 order' pending :: paragraphDocs env rest order' []

/-! ## `index_tipitaka.py` : banner and collection fallbacks -/

/-- `NIKAYA_MAP` in insertion order. -/
def nikayaMap : List (String × (String × Option String)) :=
  [("dīghanikāyo", ("sutta", some "DN")), ("dighanikayo", ("sutta", some "DN")),
   ("majjhimanikāye", ("sutta", some "MN")), ("majjhimanikaye", ("sutta", some "MN")),
   ("saṃyuttanikāye", ("sutta", some "SN")), ("saṁyuttanikāye", ("sutta", some "SN")),
   ("samyuttanikaye", ("sutta", some "SN")),
   ("aṅguttaranikāye", ("sutta", some "AN")), ("anguttaranikaye", ("sutta", some "AN")),
   ("khuddakanikāye", ("sutta", some "KN")), ("khuddakanikaye", ("sutta", some "KN")),
   ("vinayapiṭake", ("vinaya", none)), ("vinayapitake", ("vinaya", none)),
   ("abhidhammapiṭake", ("abhidhamma", none)), ("abhidhammapitake", ("abhidhamma", none))]

/-- First banner phrase (in table order) contained in the lowered banner
or its diacritic fold. -/
def bannerLookup (low lowa : String) : Option (String × Option String) :=
  nikayaMap.findSome? fun kv =>
    if strContains low kv.1 || strContains lowa kv.1 then some kv.2 else none

/-- `infer_banner`, taking the (already stripped, non-empty) texts of
the `p[@rend='nikaya']` nodes: returns (basket, collection, raw banner). -/
def infer_banner (vals : List String) : Option String × Option String × Option String :=
  match vals with
  | [] => (none, none, none)
  | _ =>
      let raw := pyStrip (pyJoin " " vals)
      let low := pyLower raw
      let lowa := to_ascii low
      match bannerLookup low lowa with
      | some (b, c) => (some b, c, some raw)
      | none => (none, none, some raw)

/-- `COLL_RE = ^(dn|mn|sn|an|kp|dhp|ud|iti|snp|vv|pv|thag|thig|vin|bd|abh)`:
the first alternative (in pattern order) that is a prefix of the lowered
input. -/
def collReMatch (s : String) : Option String :=
  ["dn", "mn", "sn", "an", "kp", "dhp", "ud", "iti", "snp", "vv", "pv",
   "thag", "thig", "vin", "bd", "abh"].find? fun p => strStarts s p

/-- The sutta-collection prefixes of the fallback tables in
`docs_from_file`. -/
def suttaPrefs : List String :=
  ["DN", "MN", "SN", "AN", "KP", "DHP", "UD", "ITI", "SNP", "VV", "PV", "THAG", "THIG"]

/-- Python truthiness of an optional string. -/
def opTruthy (o : Option String) : Bool :=
  match o with
  | some s => s ≠ ""
  | none => false

/-- The collection/basket fallback chain of `docs_from_file` after the
banner inference: (b) first matching ancestor div id, (c) filename
prefix, (d) basket defaults to "extracanonical".  `ancIds` is
`(anc.get("id") or anc.get("n") or "")` for the leaf and its ancestor
divs, in that order. -/
def classifyFallbacks (basket0 collection0 : Option String)
    (ancIds : List String) (path : String) : Option String × Option String :=
  let bc1 : Option String × Option String :=
    if ¬ opTruthy collection0 ∨ ¬ opTruthy basket0 then
      if ¬ opTruthy collection0 then
        match ancIds.findSome? (fun did => collReMatch (pyLower did)) with
        | some pref =>
            let prefU := pyUpper pref
            if suttaPrefs.contains prefU then
              (some (pyOrD basket0 "sutta"), some prefU)
            else if prefU = "VIN" ∨ prefU = "BD" then (some "vinaya", collection0)
            else if prefU = "ABH" then (some "abhidhamma", collection0)
            else (basket0, collection0)
        | none => (basket0, collection0)
      else (basket0, collection0)
    else (basket0, collection0)
  let bc2 : Option String × Option String :=
    if ¬ opTruthy bc1.1 ∨ (bc1.1 = some "sutta" ∧ ¬ opTruthy bc1.2) then
      match collReMatch (pyLower (pyBasename path)) with
      | some pref =>
          let prefU := pyUpper pref
          if suttaPrefs.contains prefU then
            (some "sutta", some (pyOrD bc1.2 prefU))
          else if prefU = "VIN" ∨ prefU = "BD" then (some "vinaya", bc1.2)
          else if prefU = "ABH" then (some "abhidhamma", bc1.2)
          else bc1
      | none => bc1
    else bc1
  (if ¬ opTruthy bc2.1 then some "extracanonical" else bc2.1, bc2.2)

/-! ## Specification-side definitions

These do not model source code; they formalize wording of the
specification so that claims can be stated and compared against the
embedded code. -/

/-- Spec-side: the componentwise numeric dotted-section ordering
("sorts before lexicographically by numeric dotted components"); a
proper prefix precedes its extensions. -/
def dottedLtB : List Int → List Int → Bool
  | [], [] => false
  | [], _ :: _ => true
  | _ :: _, [] => false
  | a :: p, b :: q => a < b || (a == b && dottedLtB p q)

/-- Spec-side: the "last dotted component" of a section key. -/
def specLastComponent (sec : String) : String :=
  (pySplit sec '.').getLastD ""

/-- The component bounds under which `seq_from_section`'s packing
(1000000/1000/10/1) is faithful: all components non-negative, the 2nd
below 1000, the 3rd below 100, the 4th below 10. -/
def seqPartsBounded (p : List Int) : Prop :=
  (∀ x ∈ p, 0 ≤ x) ∧
  match p with
  | [] => True
  | [_] => True
  | [_, b] => b < 1000
  | [_, b, c] => b < 1000 ∧ c < 100
  | [_, b, c, d] => b < 1000 ∧ c < 100 ∧ d < 10
  | _ => False

/-! ## Infrastructure lemmas -/

theorem assocGet_assocSet_self {α : Type} (l : List (String × α)) (k : String) (v : α) :
    assocGet (assocSet l k v) k = some v := by
  induction l with
  | nil => simp [assocSet, assocGet, List.find?]
  | cons hd tl ih =>
      by_cases h : hd.1 = k
      · simp [assocSet, h, assocGet, List.find?]
      · simp only [assocSet]
        rw [if_neg h]
        simpa [assocGet, List.find?, h] using ih

theorem vaggaStep_text (ctx : WorkCtx) (d : BSeg) : (vaggaStep ctx d).text = d.text := by
  unfold vaggaStep
  split
  · split <;> rfl
  · rfl

theorem vaggaStep_translator (ctx : WorkCtx) (d : BSeg) :
    (vaggaStep ctx d).translator = d.translator := by
  unfold vaggaStep
  split
  · split <;> rfl
  · rfl

theorem mergeDoc_text_of_root (lang translator : Option String) (text : String)
    (ctx : WorkCtx) (d : BSeg) :
    (mergeDoc "root" lang translator text ctx d).text = d.text := by
  unfold mergeDoc
  simp only [show ¬(("root" : String) = "translation") by decide, and_false, if_false]
  split <;> rfl

theorem mergeDoc_translator_of_root (lang translator : Option String) (text : String)
    (ctx : WorkCtx) (d : BSeg) :
    (mergeDoc "root" lang translator text ctx d).translator = d.translator := by
  unfold mergeDoc
  simp only [show ¬(("root" : String) = "translation") by decide, and_false, if_false]
  split <;> rfl

/-! ## Claim C1 -/

/-- C1 (counterexample): the claimed equivalence — `seq(s1) < seq(s2)`
iff `s1` precedes `s2` in the componentwise numeric dotted-section
ordering, for keys of up to 4 numeric dotted components — fails at
`s1 = "1.1"`, `s2 = "1.1.0"`: `"1.1"` precedes `"1.1.0"` componentwise
(proper prefix) but both map to sequence number 1001000.  (Collisions
also occur at equal lengths once a component exceeds its packing radix,
e.g. `"1.1.1.10"` and `"1.1.2"` both map to 1001020.) -/
theorem c1_counterexample :
    sectionParts "1.1" = some [1, 1] ∧
    sectionParts "1.1.0" = some [1, 1, 0] ∧
    dottedLtB [1, 1] [1, 1, 0] = true ∧
    seq_from_section "1.1" = seq_from_section "1.1.0" ∧
    ¬ (seq_from_section "1.1" < seq_from_section "1.1.0" ↔
        dottedLtB [1, 1] [1, 1, 0] = true) ∧
    sectionParts "1.1.1.10" = some [1, 1, 1, 10] ∧
    sectionParts "1.1.2" = some [1, 1, 2] ∧
    dottedLtB [1, 1, 1, 10] [1, 1, 2] = true ∧
    seq_from_section "1.1.1.10" = seq_from_section "1.1.2" := by
  decide

/-- C1 (amended): for dotted sections of the same work that parse into
numeric component lists of the *same* length (at most 4), with every
component non-negative and the 2nd/3rd/4th components below 1000/100/10
respectively, `seq_from_section` (of `bilara_loader_dropin.py`) is
strictly monotone in — and reflects — the componentwise numeric
dotted-section ordering. -/
theorem c1_seq_order_iff (s1 s2 : String) (p q : List Int)
    (h1 : sectionParts s1 = some p) (h2 : sectionParts s2 = some q)
    (hlen : p.length = q.length) (hle : p.length ≤ 4)
    (hb1 : seqPartsBounded p) (hb2 : seqPartsBounded q) :
    seq_from_section s1 < seq_from_section s2 ↔ dottedLtB p q = true := by
  have e1 : seq_from_section s1 = weightedSeq seqCoeff p := by
    simp [seq_from_section, h1, List.take_of_length_le hle]
  have e2 : seq_from_section s2 = weightedSeq seqCoeff q := by
    simp [seq_from_section, h2, List.take_of_length_le (hlen ▸ hle)]
  rw [e1, e2]
  obtain ⟨hn1, hb1⟩ := hb1
  obtain ⟨hn2, hb2⟩ := hb2
  rcases p with _ | ⟨a, _ | ⟨b, _ | ⟨c, _ | ⟨d, _ | ⟨x, tp⟩⟩⟩⟩⟩ <;>
    rcases q with _ | ⟨a', _ | ⟨b', _ | ⟨c', _ | ⟨d', _ | ⟨x', tq⟩⟩⟩⟩⟩ <;>
      simp_all [weightedSeq, seqCoeff, dottedLtB] <;> omega

/-- C1 (witness): the amended monotonicity at a concrete pair,
`"1.2"` vs `"1.10"`. -/
theorem c1_seq_order_iff_witness :
    seq_from_section "1.2" < seq_from_section "1.10" ↔
      dottedLtB [1, 2] [1, 10] = true :=
  c1_seq_order_iff "1.2" "1.10" [1, 2] [1, 10]
    (by decide) (by decide) (by decide) (by decide)
    (by constructor <;> decide) (by constructor <;> decide)

/-! ## Claim C3 -/

/-- C3 (counterexample): the claim's boundary criterion — "a non-title
section whose last dotted component is `1`" — disagrees with the code
(`section.endswith(".1")`) on the dot-less section key `"1"`: its last
dotted component is `"1"` and it is not a title section, yet the code
does not treat it as a stanza boundary, so the produced segment carries
no stanza number where the claim requires the counter to increment. -/
theorem c3_counterexample :
    is_title_section "1" = false ∧
    specLastComponent "1" = "1" ∧
    is_gatha_boundary "1" = false ∧
    (assocGet (gather_segments [⟨"y/root/x.json", [("pli-tv-kd10:1", "s1")]⟩])
        "pli-tv-kd10:1").map (fun d => (d.gatha_no, d.gatha_line)) =
      some (none, none) := by
  decide

/-- C3 (amended): processing a work's non-title section keys strictly in
encounter order, a non-title section whose key *ends with `".1"`* (i.e.
has at least two components, the last being `1`) increments the per-work
stanza counter and resets line-within-stanza to 1; any other non-title
section while the stanza counter is positive increments
line-within-stanza; title sections leave both counters unchanged.  In
particular the sections 1.1, 1.2, 2.1, 2.2, 2.3 (no title sections) of a
work receive stanza numbers 1,1,2,2,2 and line numbers 1,2,1,2,3 (the
likely-verse flag plays no role in the counters). -/
theorem c3_stanza_tracking :
    (∀ (sec text : String) (ctx : WorkCtx),
        is_title_section sec = false → strEnds sec ".1" = true →
          (ctxStep (is_title_section sec) sec text ctx).gatha_no = ctx.gatha_no + 1 ∧
          (ctxStep (is_title_section sec) sec text ctx).gatha_line = 1) ∧
    (∀ (sec text : String) (ctx : WorkCtx),
        is_title_section sec = false → strEnds sec ".1" = false → 0 < ctx.gatha_no →
          (ctxStep (is_title_section sec) sec text ctx).gatha_no = ctx.gatha_no ∧
          (ctxStep (is_title_section sec) sec text ctx).gatha_line = ctx.gatha_line + 1) ∧
    (∀ (sec text : String) (ctx : WorkCtx),
        is_title_section sec = true →
          (ctxStep (is_title_section sec) sec text ctx).gatha_no = ctx.gatha_no ∧
          (ctxStep (is_title_section sec) sec text ctx).gatha_line = ctx.gatha_line) ∧
    (gather_segments [⟨"x/root/pli/ms/dhp1_root.json",
        [("dhp1:1.1", "a"), ("dhp1:1.2", "b"), ("dhp1:2.1", "c"),
         ("dhp1:2.2", "d"), ("dhp1:2.3", "e")]⟩]).map
          (fun kv => (kv.1, kv.2.gatha_no, kv.2.gatha_line)) =
      [("dhp1:1.1", some 1, some 1), ("dhp1:1.2", some 1, some 2),
       ("dhp1:2.1", some 2, some 1), ("dhp1:2.2", some 2, some 2),
       ("dhp1:2.3", some 2, some 3)] := by
  refine ⟨?_, ?_, ?_, by decide⟩
  · intro sec text ctx hnt he
    have hb : is_gatha_boundary sec = true := by
      simp [is_gatha_boundary, hnt, he]
    simp [ctxStep, hnt, hb]
  · intro sec text ctx hnt he hpos
    have hb : is_gatha_boundary sec = false := by
      simp [is_gatha_boundary, hnt, he]
    simp [ctxStep, hnt, hb, hpos]
  · intro sec text ctx ht
    have hb : is_gatha_boundary sec = false := by
      simp [is_gatha_boundary, ht]
    simp [ctxStep, ht, hb]

/-- C3 (witness): the amended boundary rule at the concrete section
`"2.1"` on a context with one open stanza. -/
theorem c3_stanza_tracking_witness :
    (ctxStep (is_title_section "2.1") "2.1" "t" ⟨[], 1, 2, false, false⟩).gatha_no = 2 ∧
    (ctxStep (is_title_section "2.1") "2.1" "t" ⟨[], 1, 2, false, false⟩).gatha_line = 1 :=
  c3_stanza_tracking.1 "2.1" "t" ⟨[], 1, 2, false, false⟩ (by decide) (by decide)

/-! ## Claim C7 -/

/-- C7 (counterexample): a key not matching `SEG_KEY_RE` produces no
segment and no variant and the remaining keys are processed — but
nothing is "logged as a count": `gather_segments` contains no logging
statement anywhere (the non-matching key is dropped by a bare
`continue`), so on an input with one skipped key its log output is
empty rather than containing any count. -/
theorem c7_counterexample :
    (assocGet (gather_segments
        [⟨"a/root/f.json", [("badkey", "z"), ("mn1:1", "x")]⟩]) "badkey") = none ∧
    (gather_segments [⟨"a/root/f.json", [("badkey", "z"), ("mn1:1", "x")]⟩]).map
        (fun kv => kv.1) = ["mn1:1"] ∧
    gather_segments_log [⟨"a/root/f.json", [("badkey", "z"), ("mn1:1", "x")]⟩] = [] := by
  decide

/-- C7 (amended): an entry whose key does not match
`^([a-z\-]+[\d.]+):([0-9][0-9a-z.\-]*)$` leaves the loop state entirely
unchanged — no segment, no variant, no context update — and processing
of the remaining keys continues exactly as if the key were absent; the
skipped keys are dropped silently, without any count being logged. -/
theorem c7_skip_malformed (layer : String) (lang translator : Option String)
    (fname_work_id : Option String) (fp : String) (st : GatherSt)
    (k t : String) (hk : segKeyMatch k = none) :
    processEntry layer lang translator fname_work_id fp st (k, t) = st ∧
    (∀ rest : List (String × String),
      ((k, t) :: rest).foldl (processEntry layer lang translator fname_work_id fp) st =
        rest.foldl (processEntry layer lang translator fname_work_id fp) st) ∧
    (∀ files : List BFile, gather_segments_log files = []) := by
  have h1 : processEntry layer lang translator fname_work_id fp st (k, t) = st := by
    simp [processEntry, hk]
  exact ⟨h1, fun rest => by simp [List.foldl_cons, h1], fun _ => rfl⟩

/-- C7 (witness): skipping at the concrete malformed key `"badkey"` on a
concrete state. -/
theorem c7_skip_malformed_witness :
    processEntry "root" (some "pli") none none "a/root/f.json"
        ⟨[], [], none, none⟩ ("badkey", "z") = ⟨[], [], none, none⟩ :=
  (c7_skip_malformed "root" (some "pli") none none "a/root/f.json"
    ⟨[], [], none, none⟩ "badkey" "z" (by decide)).1

/-! ## Merge-step helper lemmas -/

theorem mergeDoc_frame (layer : String) (lang translator : Option String)
    (text : String) (ctx : WorkCtx) (d : BSeg) :
    (mergeDoc layer lang translator text ctx d).segment_id = d.segment_id ∧
    (mergeDoc layer lang translator text ctx d).segment_num = d.segment_num ∧
    (mergeDoc layer lang translator text ctx d).seq = d.seq ∧
    (mergeDoc layer lang translator text ctx d).is_title = d.is_title ∧
    (mergeDoc layer lang translator text ctx d).basket = d.basket ∧
    (mergeDoc layer lang translator text ctx d).collection = d.collection ∧
    (mergeDoc layer lang translator text ctx d).sutta = d.sutta ∧
    (mergeDoc layer lang translator text ctx d).sutta_num = d.sutta_num ∧
    (mergeDoc layer lang translator text ctx d).division_code = d.division_code ∧
    (mergeDoc layer lang translator text ctx d).division_num = d.division_num := by
  unfold mergeDoc
  dsimp only
  split <;> split <;> split <;>
    exact ⟨rfl, rfl, rfl, rfl, rfl, rfl, rfl, rfl, rfl, rfl⟩

theorem vaggaStep_frame (ctx : WorkCtx) (d : BSeg) :
    (vaggaStep ctx d).segment_id = d.segment_id ∧
    (vaggaStep ctx d).segment_num = d.segment_num ∧
    (vaggaStep ctx d).seq = d.seq ∧
    (vaggaStep ctx d).is_title = d.is_title ∧
    (vaggaStep ctx d).basket = d.basket ∧
    (vaggaStep ctx d).collection = d.collection ∧
    (vaggaStep ctx d).sutta = d.sutta ∧
    (vaggaStep ctx d).sutta_num = d.sutta_num ∧
    (vaggaStep ctx d).division_code = d.division_code ∧
    (vaggaStep ctx d).division_num = d.division_num := by
  unfold vaggaStep
  split
  · split <;> exact ⟨rfl, rfl, rfl, rfl, rfl, rfl, rfl, rfl, rfl, rfl⟩
  · exact ⟨rfl, rfl, rfl, rfl, rfl, rfl, rfl, rfl, rfl, rfl⟩

/-- Shape of the state after `processEntry` merges into an existing
segment document. -/
theorem processEntry_existing (layer : String) (lang translator : Option String)
    (fname_work_id : Option String) (fp : String) (st : GatherSt)
    (sid t w sec : String) (doc : BSeg)
    (hm : segKeyMatch sid = some (w, sec))
    (hd : assocGet st.segments sid = some doc) :
    assocGet (processEntry layer lang translator fname_work_id fp st (sid, t)).segments sid =
      some (
        let ctx1 := ctxStep (is_title_section sec) sec t
          ((assocGet st.work_context w).getD (ctxFresh w));
        let doc1 := vaggaStep ctx1 (mergeDoc layer lang translator t ctx1 doc);
        { doc1 with
            variants := doc1.variants ++
              [{ layer := layer, lang := lang, translator := translator,
                 text := t, source_file := pyBasename fp }] }) := by
  simp only [processEntry, hm]
  rw [hd]
  exact assocGet_assocSet_self _ _ _

/-! ## Claim C10 -/

/-- C10: merging a further raw segment into an already-present
CanonicalSegment leaves `segment_id`, `segment_num`, `seq`, `is_title`,
`basket`, `collection`, `sutta`, `sutta_num`, `division_code` and
`division_num` of the existing document unchanged (only the denormalized
fills, the verse metadata, the title snapshot, the vagga field and the
appended variant list may change). -/
theorem c10_merge_frame (layer : String) (lang translator : Option String)
    (fname_work_id : Option String) (fp : String) (st : GatherSt)
    (sid t : String) (doc : BSeg)
    (hd : assocGet st.segments sid = some doc) :
    ∃ doc',
      assocGet (processEntry layer lang translator fname_work_id fp st (sid, t)).segments sid
          = some doc' ∧
      doc'.segment_id = doc.segment_id ∧ doc'.segment_num = doc.segment_num ∧
      doc'.seq = doc.seq ∧ doc'.is_title = doc.is_title ∧
      doc'.basket = doc.basket ∧ doc'.collection = doc.collection ∧
      doc'.sutta = doc.sutta ∧ doc'.sutta_num = doc.sutta_num ∧
      doc'.division_code = doc.division_code ∧ doc'.division_num = doc.division_num := by
  cases hm : segKeyMatch sid with
  | none =>
      refine ⟨doc, ?_, rfl, rfl, rfl, rfl, rfl, rfl, rfl, rfl, rfl, rfl⟩
      simpa [processEntry, hm] using hd
  | some ws =>
      obtain ⟨w, sec⟩ := ws
      refine ⟨_, processEntry_existing layer lang translator fname_work_id fp st
        sid t w sec doc hm hd, ?_⟩
      have hM := mergeDoc_frame layer lang translator t
        (ctxStep (is_title_section sec) sec t
          ((assocGet st.work_context w).getD (ctxFresh w))) doc
      have hV := vaggaStep_frame
        (ctxStep (is_title_section sec) sec t
          ((assocGet st.work_context w).getD (ctxFresh w)))
        (mergeDoc layer lang translator t
          (ctxStep (is_title_section sec) sec t
            ((assocGet st.work_context w).getD (ctxFresh w))) doc)
      obtain ⟨m1, m2, m3, m4, m5, m6, m7, m8, m9, m10⟩ := hM
      obtain ⟨v1, v2, v3, v4, v5, v6, v7, v8, v9, v10⟩ := hV
      exact ⟨v1.trans m1, v2.trans m2, v3.trans m3, v4.trans m4, v5.trans m5,
             v6.trans m6, v7.trans m7, v8.trans m8, v9.trans m9, v10.trans m10⟩

/-- C10 (witness): the frame condition at a concrete state holding one
document for `"mn1:1.1"`, merging a second variant for the same id. -/
theorem c10_merge_frame_witness :
    ∃ doc',
      assocGet (processEntry "root" (some "pli") none none "a/root/f.json"
          ⟨[("mn1:1.1",
             ⟨"mn1:1.1", "1.1", 1001000, false, some "sutta", some "MN", some "mn1",
              some 1, none, none, none, some "tr", some "en", some "T", false, none,
              none, [], []⟩)], [], none, none⟩ ("mn1:1.1", "x")).segments "mn1:1.1"
          = some doc' ∧
      doc'.segment_id = "mn1:1.1" ∧ doc'.segment_num = "1.1" ∧
      doc'.seq = 1001000 ∧ doc'.is_title = false ∧
      doc'.basket = some "sutta" ∧ doc'.collection = some "MN" ∧
      doc'.sutta = some "mn1" ∧ doc'.sutta_num = some 1 ∧
      doc'.division_code = none ∧ doc'.division_num = none := by
  have h := c10_merge_frame "root" (some "pli") none none "a/root/f.json"
    ⟨[("mn1:1.1",
       ⟨"mn1:1.1", "1.1", 1001000, false, some "sutta", some "MN", some "mn1",
        some 1, none, none, none, some "tr", some "en", some "T", false, none,
        none, [], []⟩)], [], none, none⟩ "mn1:1.1" "x"
    ⟨"mn1:1.1", "1.1", 1001000, false, some "sutta", some "MN", some "mn1",
     some 1, none, none, none, some "tr", some "en", some "T", false, none,
     none, [], []⟩ (by decide)
  exact h

/-! ## Finalization-pass helper lemmas -/

theorem firstNonEmptyText_eq_find (vs : List BVariant) :
    firstNonEmptyText vs = (vs.find? fun v => !(v.text == "")).map fun v => v.text := by
  induction vs with
  | nil => rfl
  | cons v rest ih =>
      by_cases h : v.text = ""
      · have hb : (v.text == "") = true := by simp [h]
        simp [firstNonEmptyText, List.find?, h, hb, ih]
      · have hb : (v.text == "") = false := by simp [h]
        simp [firstNonEmptyText, List.find?, h, hb]

theorem firstTruthySome_eq_find (f : BVariant → Option String) (vs : List BVariant) :
    firstTruthySome f vs = (vs.find? fun v => opTruthy (f v)).bind f := by
  induction vs with
  | nil => rfl
  | cons v rest ih =>
      cases hf : f v with
      | none => simp [firstTruthySome, List.find?, hf, opTruthy, ih]
      | some s =>
          by_cases h : s = ""
          · simp [firstTruthySome, List.find?, hf, opTruthy, h, ih]
          · simp [firstTruthySome, List.find?, hf, opTruthy, h]

theorem postFillDoc_text (d : BSeg) :
    (postFillDoc d).text =
      (match d.text with
       | none => firstNonEmptyText d.variants
       | some t => some t) := by
  unfold postFillDoc
  cases hd : d.text <;> by_cases h1 : d.translator = none <;> simp_all <;> split <;> simp_all

theorem postFillDoc_translator (d : BSeg) :
    (postFillDoc d).translator =
      (match d.translator with
       | none => firstTruthySome (fun v => v.translator) d.variants
       | some t => some t) := by
  unfold postFillDoc
  cases hd : d.translator <;> simp_all <;> split <;> simp_all <;> split <;> simp_all

theorem postFillDoc_lang (d : BSeg) :
    (postFillDoc d).lang =
      (match d.lang with
       | none => firstTruthySome (fun v => v.lang) d.variants
       | some t => some t) := by
  unfold postFillDoc
  cases hd : d.lang <;> by_cases h1 : d.translator = none <;> simp_all <;> split <;> simp_all

/-! ## Claim C2 -/

/-- C2 (counterexample): the claimed finalization rule — a segment whose
denormalized text is still null is filled "from the first variant in its
list having a non-null value for that field" — fails when the first
variant's text is the empty string (a perfectly possible JSON value,
non-null): the code's truthiness test skips it and fills from a later
variant instead.  Two root-layer files for `snp1.1:1.1` with texts `""`
then `"b"` leave the pre-pass text null; the claim requires final text
`""` (first variant, non-null), the code produces `"b"`. -/
theorem c2_counterexample :
    (assocGet (gather_segments
        [⟨"a/root/f1.json", [("snp1.1:1.1", "")]⟩,
         ⟨"b/root/f2.json", [("snp1.1:1.1", "b")]⟩]) "snp1.1:1.1").map
        (fun d => (d.text, d.variants.map fun v => v.text)) =
      some (some "b", ["", "b"]) ∧
    (some "b" : Option String) ≠ some "" := by
  constructor
  · decide
  · decide

/-- C2 (amended): (i) once a merged segment's denormalized text has been
set (in particular from a translation-layer variant — the only layer
that ever sets it during the merge loop), processing any later
origin-layer ("root") variant for the same identifier leaves the
denormalized text and translator unchanged; (ii) after all input is
consumed, the finalization pass fills a still-null denormalized
text/translator/language from the first variant in the list having a
non-null *and non-empty* value for that field, and leaves an already-set
text unchanged. -/
theorem c2_denorm_fill :
    (∀ (lang translator : Option String) (fname_work_id : Option String)
        (fp : String) (st : GatherSt) (sid t tval : String) (doc : BSeg),
        assocGet st.segments sid = some doc → doc.text = some tval →
        ∃ doc',
          assocGet (processEntry "root" lang translator fname_work_id fp st
              (sid, t)).segments sid = some doc' ∧
          doc'.text = some tval ∧ doc'.translator = doc.translator) ∧
    (∀ doc : BSeg,
        (doc.text = none →
          (postFillDoc doc).text =
            (doc.variants.find? fun v => !(v.text == "")).map fun v => v.text) ∧
        (doc.translator = none →
          (postFillDoc doc).translator =
            (doc.variants.find? fun v => opTruthy v.translator).bind fun v => v.translator) ∧
        (doc.lang = none →
          (postFillDoc doc).lang =
            (doc.variants.find? fun v => opTruthy v.lang).bind fun v => v.lang) ∧
        (∀ tval, doc.text = some tval → (postFillDoc doc).text = some tval)) := by
  constructor
  · intro lang translator fname_work_id fp st sid t tval doc hd ht
    cases hm : segKeyMatch sid with
    | none =>
        refine ⟨doc, ?_, ht, rfl⟩
        simpa [processEntry, hm] using hd
    | some ws =>
        obtain ⟨w, sec⟩ := ws
        refine ⟨_, processEntry_existing "root" lang translator fname_work_id fp st
          sid t w sec doc hm hd, ?_, ?_⟩
        · show (vaggaStep _ (mergeDoc "root" lang translator t _ doc)).text = some tval
          rw [vaggaStep_text, mergeDoc_text_of_root, ht]
        · show (vaggaStep _ (mergeDoc "root" lang translator t _ doc)).translator
              = doc.translator
          rw [vaggaStep_translator, mergeDoc_translator_of_root]
  · intro doc
    refine ⟨fun h => ?_, fun h => ?_, fun h => ?_, fun tval h => ?_⟩
    · rw [postFillDoc_text, h, firstNonEmptyText_eq_find]
    · rw [postFillDoc_translator, h, firstTruthySome_eq_find]
    · rw [postFillDoc_lang, h, firstTruthySome_eq_find]
    · rw [postFillDoc_text, h]

/-- C2 (witness): the preservation half at a concrete state holding a
document with text already set, merging a root variant; and the
fill half on a document with two variants, text `""` then `"b"`. -/
theorem c2_denorm_fill_witness :
    (∃ doc',
      assocGet (processEntry "root" (some "pli") none none "a/root/f.json"
          ⟨[("mn1:1.1",
             ⟨"mn1:1.1", "1.1", 1001000, false, none, none, none, none, none, none,
              none, some "tr", some "en", some "T", false, none, none, [], []⟩)],
            [], none, none⟩ ("mn1:1.1", "x")).segments "mn1:1.1" = some doc' ∧
      doc'.text = some "T" ∧ doc'.translator = some "tr") ∧
    (postFillDoc
        ⟨"s", "1.1", 0, false, none, none, none, none, none, none, none,
         none, none, none, false, none, none, [],
         [⟨"root", some "pli", none, "", "f1"⟩,
          ⟨"root", some "pli", none, "b", "f2"⟩]⟩).text =
      (([⟨"root", some "pli", none, "", "f1"⟩,
         ⟨"root", some "pli", none, "b", "f2"⟩] : List BVariant).find?
          fun v => !(v.text == "")).map fun v => v.text := by
  constructor
  · exact (c2_denorm_fill.1 (some "pli") none none "a/root/f.json"
      ⟨[("mn1:1.1",
         ⟨"mn1:1.1", "1.1", 1001000, false, none, none, none, none, none, none,
          none, some "tr", some "en", some "T", false, none, none, [], []⟩)],
        [], none, none⟩ "mn1:1.1" "x" "T"
      ⟨"mn1:1.1", "1.1", 1001000, false, none, none, none, none, none, none,
       none, some "tr", some "en", some "T", false, none, none, [], []⟩
      (by decide) (by decide))
  · exact (c2_denorm_fill.2 _).1 (by decide)

/-! ## Further merge-step helper lemmas -/

theorem vaggaStep_lang (ctx : WorkCtx) (d : BSeg) :
    (vaggaStep ctx d).lang = d.lang := by
  unfold vaggaStep
  split
  · split <;> rfl
  · rfl

theorem vaggaStep_variants (ctx : WorkCtx) (d : BSeg) :
    (vaggaStep ctx d).variants = d.variants := by
  unfold vaggaStep
  split
  · split <;> rfl
  · rfl

theorem mergeDoc_variants (layer : String) (lang translator : Option String)
    (text : String) (ctx : WorkCtx) (d : BSeg) :
    (mergeDoc layer lang translator text ctx d).variants = d.variants := by
  unfold mergeDoc
  dsimp only
  split <;> split <;> split <;> rfl

theorem mergeDoc_text_of_translation (lang translator : Option String)
    (text : String) (ctx : WorkCtx) (d : BSeg) (hd : d.text = none) :
    (mergeDoc "translation" lang translator text ctx d).text = some text := by
  unfold mergeDoc
  dsimp only
  split <;> split <;> simp_all

theorem postFillDoc_variants (d : BSeg) : (postFillDoc d).variants = d.variants := by
  unfold postFillDoc
  dsimp only
  split <;> split <;> split <;> rfl

theorem assocGet_map {α β : Type} (f : α → β) (l : List (String × α)) (k : String) :
    assocGet (l.map fun kv => (kv.1, f kv.2)) k = (assocGet l k).map f := by
  induction l with
  | nil => rfl
  | cons hd tl ih =>
      by_cases h : hd.1 = k
      · simp [assocGet, List.find?, h]
      · simpa [assocGet, List.find?, h] using ih

theorem processEntry_new (layer : String) (lang translator : Option String)
    (fname_work_id : Option String) (fp : String) (st : GatherSt)
    (sid t w sec : String)
    (hm : segKeyMatch sid = some (w, sec))
    (hd : assocGet st.segments sid = none) :
    ∃ doc',
      assocGet (processEntry layer lang translator fname_work_id fp st (sid, t)).segments sid
          = some doc' ∧
      doc'.text = (if layer = "translation" then some t else none) ∧
      doc'.translator = (if layer = "translation" then translator else none) ∧
      doc'.lang = lang ∧
      doc'.variants = [⟨layer, lang, translator, t, pyBasename fp⟩] := by
  simp only [processEntry, hm]
  rw [hd]
  refine ⟨_, assocGet_assocSet_self _ _ _, ?_, ?_, ?_, ?_⟩
  · show (vaggaStep _ (createDoc _ _ _ _ _ _ _ _ _ _ _ _ _ _ _)).text = _
    rw [vaggaStep_text]
    rfl
  · show (vaggaStep _ (createDoc _ _ _ _ _ _ _ _ _ _ _ _ _ _ _)).translator = _
    rw [vaggaStep_translator]
    rfl
  · show (vaggaStep _ (createDoc _ _ _ _ _ _ _ _ _ _ _ _ _ _ _)).lang = _
    rw [vaggaStep_lang]
    rfl
  · show (vaggaStep _ (createDoc _ _ _ _ _ _ _ _ _ _ _ _ _ _ _)).variants ++ _ = _
    rw [vaggaStep_variants]
    rfl


theorem processEntry_existing_proj (layer : String) (lang translator : Option String)
    (fname_work_id : Option String) (fp : String) (st : GatherSt)
    (sid t w sec : String) (doc : BSeg)
    (hm : segKeyMatch sid = some (w, sec))
    (hd : assocGet st.segments sid = some doc) :
    ∃ doc',
      assocGet (processEntry layer lang translator fname_work_id fp st (sid, t)).segments sid
          = some doc' ∧
      (layer = "root" → doc'.text = doc.text ∧ doc'.translator = doc.translator) ∧
      (layer = "translation" → doc.text = none → doc'.text = some t) ∧
      doc'.variants = doc.variants ++
        [⟨layer, lang, translator, t, pyBasename fp⟩] := by
  refine ⟨_, processEntry_existing layer lang translator fname_work_id fp st
    sid t w sec doc hm hd, ?_, ?_, ?_⟩
  · intro hl; subst hl
    constructor
    · show (vaggaStep _ (mergeDoc "root" lang translator t _ doc)).text = doc.text
      rw [vaggaStep_text, mergeDoc_text_of_root]
    · show (vaggaStep _ (mergeDoc "root" lang translator t _ doc)).translator = doc.translator
      rw [vaggaStep_translator, mergeDoc_translator_of_root]
  · intro hl hnone; subst hl
    show (vaggaStep _ (mergeDoc "translation" lang translator t _ doc)).text = some t
    rw [vaggaStep_text, mergeDoc_text_of_translation _ _ _ _ _ hnone]
  · show (vaggaStep _ (mergeDoc layer lang translator t _ doc)).variants ++ _ = _
    rw [vaggaStep_variants, mergeDoc_variants]

/-! ## Claim C4 -/

/-- C4: for a single segment identifier receiving exactly one
translation-layer variant and one origin-layer (root) variant, the final
denormalized text of the merged CanonicalSegment is the translation's
text whichever of the two files is processed first, while the variant
list reflects encounter order in each run. -/
theorem c4_merge_commutes (pathT pathR lg tr sid w sec tT tR : String)
    (hT : infer_variant_from_path pathT = ("translation", some lg, some tr))
    (hR : infer_variant_from_path pathR = ("root", some "pli", none))
    (hm : segKeyMatch sid = some (w, sec)) :
    (∃ d, assocGet (gather_segments [⟨pathT, [(sid, tT)]⟩, ⟨pathR, [(sid, tR)]⟩]) sid
        = some d ∧ d.text = some tT ∧
        d.variants = [⟨"translation", some lg, some tr, tT, pyBasename pathT⟩,
                      ⟨"root", some "pli", none, tR, pyBasename pathR⟩]) ∧
    (∃ d, assocGet (gather_segments [⟨pathR, [(sid, tR)]⟩, ⟨pathT, [(sid, tT)]⟩]) sid
        = some d ∧ d.text = some tT ∧
        d.variants = [⟨"root", some "pli", none, tR, pyBasename pathR⟩,
                      ⟨"translation", some lg, some tr, tT, pyBasename pathT⟩]) := by
  constructor
  · rcases hswT : split_scheme_and_number ((parse_work_id_from_filename pathT).getD "")
      with ⟨s0, w0⟩
    obtain ⟨d1, hd1, hd1text, hd1tr, hd1lang, hd1var⟩ :=
      processEntry_new "translation" (some lg) (some tr)
        (parse_work_id_from_filename pathT) pathT
        ⟨[], [], s0, w0⟩ sid tT w sec hm rfl
    have e1 : processFile ⟨[], [], none, none⟩ ⟨pathT, [(sid, tT)]⟩ =
        processEntry "translation" (some lg) (some tr)
          (parse_work_id_from_filename pathT) pathT ⟨[], [], s0, w0⟩ (sid, tT) := by
      simp [processFile, hT, hswT]
    rcases hswR : split_scheme_and_number ((parse_work_id_from_filename pathR).getD "")
      with ⟨s1, w1⟩
    set st1 := processEntry "translation" (some lg) (some tr)
      (parse_work_id_from_filename pathT) pathT ⟨[], [], s0, w0⟩ (sid, tT) with hst1
    have e2 : processFile st1 ⟨pathR, [(sid, tR)]⟩ =
        processEntry "root" (some "pli") none
          (parse_work_id_from_filename pathR) pathR
          ⟨st1.segments, st1.work_context, s1, w1⟩ (sid, tR) := by
      simp [processFile, hR, hswR]
    obtain ⟨d2, hd2, hroot, _, hvar2⟩ :=
      processEntry_existing_proj "root" (some "pli") none
        (parse_work_id_from_filename pathR) pathR
        ⟨st1.segments, st1.work_context, s1, w1⟩ sid tR w sec d1 hm hd1
    have hgather : gather_segments [⟨pathT, [(sid, tT)]⟩, ⟨pathR, [(sid, tR)]⟩]
        = (processEntry "root" (some "pli") none
            (parse_work_id_from_filename pathR) pathR
            ⟨st1.segments, st1.work_context, s1, w1⟩ (sid, tR)).segments.map
            (fun kv => (kv.1, postFillDoc kv.2)) := by
      simp only [gather_segments, List.foldl, e1, ← hst1, e2]
    rw [hgather, assocGet_map, hd2]
    refine ⟨postFillDoc d2, rfl, ?_, ?_⟩
    · rw [postFillDoc_text, (hroot rfl).1]
      have : d1.text = some tT := by simpa using hd1text
      simp [this]
    · rw [postFillDoc_variants, hvar2, hd1var]
      rfl
  · rcases hswR : split_scheme_and_number ((parse_work_id_from_filename pathR).getD "")
      with ⟨s0, w0⟩
    obtain ⟨d1, hd1, hd1text, hd1tr, hd1lang, hd1var⟩ :=
      processEntry_new "root" (some "pli") none
        (parse_work_id_from_filename pathR) pathR
        ⟨[], [], s0, w0⟩ sid tR w sec hm rfl
    have e1 : processFile ⟨[], [], none, none⟩ ⟨pathR, [(sid, tR)]⟩ =
        processEntry "root" (some "pli") none
          (parse_work_id_from_filename pathR) pathR ⟨[], [], s0, w0⟩ (sid, tR) := by
      simp [processFile, hR, hswR]
    rcases hswT : split_scheme_and_number ((parse_work_id_from_filename pathT).getD "")
      with ⟨s1, w1⟩
    set st1 := processEntry "root" (some "pli") none
      (parse_work_id_from_filename pathR) pathR ⟨[], [], s0, w0⟩ (sid, tR) with hst1
    have e2 : processFile st1 ⟨pathT, [(sid, tT)]⟩ =
        processEntry "translation" (some lg) (some tr)
          (parse_work_id_from_filename pathT) pathT
          ⟨st1.segments, st1.work_context, s1, w1⟩ (sid, tT) := by
      simp [processFile, hT, hswT]
    obtain ⟨d2, hd2, _, htrans, hvar2⟩ :=
      processEntry_existing_proj "translation" (some lg) (some tr)
        (parse_work_id_from_filename pathT) pathT
        ⟨st1.segments, st1.work_context, s1, w1⟩ sid tT w sec d1 hm hd1
    have hgather : gather_segments [⟨pathR, [(sid, tR)]⟩, ⟨pathT, [(sid, tT)]⟩]
        = (processEntry "translation" (some lg) (some tr)
            (parse_work_id_from_filename pathT) pathT
            ⟨st1.segments, st1.work_context, s1, w1⟩ (sid, tT)).segments.map
            (fun kv => (kv.1, postFillDoc kv.2)) := by
      simp only [gather_segments, List.foldl, e1, ← hst1, e2]
    rw [hgather, assocGet_map, hd2]
    have hd1none : d1.text = none := by simpa using hd1text
    refine ⟨postFillDoc d2, rfl, ?_, ?_⟩
    · rw [postFillDoc_text, htrans rfl hd1none]
    · rw [postFillDoc_variants, hvar2, hd1var]
      rfl

/-- C4 (witness): the commuting merge at concrete paths and texts for
`mn10:1.1`. -/
theorem c4_merge_commutes_witness :
    (∃ d, assocGet (gather_segments
        [⟨"bilara/translation/en/sujato/mn10_translation-en-sujato.json",
          [("mn10:1.1", "Should be discourse")]⟩,
         ⟨"bilara/root/pli/ms/mn10_root-pli-ms.json",
          [("mn10:1.1", "Evam me sutam")]⟩]) "mn10:1.1"
        = some d ∧ d.text = some "Should be discourse" ∧
        d.variants = [⟨"translation", some "en", some "sujato", "Should be discourse",
                        pyBasename "bilara/translation/en/sujato/mn10_translation-en-sujato.json"⟩,
                      ⟨"root", some "pli", none, "Evam me sutam",
                        pyBasename "bilara/root/pli/ms/mn10_root-pli-ms.json"⟩]) ∧
    (∃ d, assocGet (gather_segments
        [⟨"bilara/root/pli/ms/mn10_root-pli-ms.json",
          [("mn10:1.1", "Evam me sutam")]⟩,
         ⟨"bilara/translation/en/sujato/mn10_translation-en-sujato.json",
          [("mn10:1.1", "Should be discourse")]⟩]) "mn10:1.1"
        = some d ∧ d.text = some "Should be discourse" ∧
        d.variants = [⟨"root", some "pli", none, "Evam me sutam",
                        pyBasename "bilara/root/pli/ms/mn10_root-pli-ms.json"⟩,
                      ⟨"translation", some "en", some "sujato", "Should be discourse",
                        pyBasename "bilara/translation/en/sujato/mn10_translation-en-sujato.json"⟩]) :=
  c4_merge_commutes
    "bilara/translation/en/sujato/mn10_translation-en-sujato.json"
    "bilara/root/pli/ms/mn10_root-pli-ms.json"
    "en" "sujato" "mn10:1.1" "mn10" "1.1" "Should be discourse" "Evam me sutam"
    (by decide) (by decide) (by decide)

/-! ## Claim C5 -/

/-- C5: for the three-part collection DN (part sizes 13, 10, 11), a
hierarchy chain whose first matching ancestor id is `dn{k}` plus a local
numeric hint `s` parsed from the sub-heading yield canonical number
(sum of the part sizes before part k) + s and canonical reference
`"DN {number}"`; a hint outside the part's 1..size range yields no
canonical reference. -/
theorem c5_dn_numbering (doc : TipDoc) (k s : Nat)
    (hc : doc.collection = some "DN")
    (hv : dnVagga doc.hierarchy = some k)
    (hs : _int_from_subhead doc.subhead = some s) :
    (1 ≤ s ∧ s ≤ dnCounts.getD (k - 1) 0 →
      (attach_canonical doc).canonical_scheme = some "DN" ∧
      (attach_canonical doc).canonical_ref =
        some ("DN " ++ toString ((dnCounts.take (k - 1)).sum + s))) ∧
    (s < 1 ∨ dnCounts.getD (k - 1) 0 < s →
      (attach_canonical doc).canonical_scheme = doc.canonical_scheme ∧
      (attach_canonical doc).canonical_ref = doc.canonical_ref) := by
  constructor
  · rintro ⟨h1, h2⟩
    have hdn : _dn_number doc.hierarchy (_int_from_subhead doc.subhead)
        = some ((dnCounts.take (k - 1)).sum + s) := by
      simp only [_dn_number, hv, hs]
      rw [if_neg (by omega : ¬ s = 0),
          if_neg (by omega : ¬ (s < 1 ∨ dnCounts.getD (k - 1) 0 < s))]
    simp only [attach_canonical, hc, if_pos, hdn]
    rw [if_pos (by omega : ¬ (dnCounts.take (k - 1)).sum + s = 0)]
    exact ⟨rfl, rfl⟩
  · intro h
    have hdn : _dn_number doc.hierarchy (_int_from_subhead doc.subhead) = none := by
      simp only [_dn_number, hv, hs]
      rcases Nat.eq_zero_or_pos s with h0 | h0
      · rw [if_pos h0]
      · rw [if_neg (by omega : ¬ s = 0), if_pos (by omega)]
    simp only [attach_canonical, hc, hdn]
    exact ⟨rfl, rfl⟩


/-- C5 (witness): a leaf under book ancestor `dn1` with hint 5 yields
the canonical reference "DN 5". -/
theorem c5_dn_numbering_witness :
    (attach_canonical
        ⟨none, some "DN", "mula", none, none, none, some "5. Mahapadanasuttam",
         [⟨some "book", some "dn1", none⟩], none, none, none, "d", "s", 1, none,
         none, [], "pi-Latn", "t", "<p/>", "f", "p"⟩).canonical_scheme = some "DN" ∧
    (attach_canonical
        ⟨none, some "DN", "mula", none, none, none, some "5. Mahapadanasuttam",
         [⟨some "book", some "dn1", none⟩], none, none, none, "d", "s", 1, none,
         none, [], "pi-Latn", "t", "<p/>", "f", "p"⟩).canonical_ref = some "DN 5" := by
  have h := (c5_dn_numbering
    ⟨none, some "DN", "mula", none, none, none, some "5. Mahapadanasuttam",
     [⟨some "book", some "dn1", none⟩], none, none, none, "d", "s", 1, none,
     none, [], "pi-Latn", "t", "<p/>", "f", "p"⟩ 1 5
    rfl (by decide) (by decide)).1 (by decide)
  exact ⟨h.1, h.2.trans (by decide)⟩

/-! ## Claim C6 -/

/-- Per-collection resolvers all fail when the numeric hint is
unparsable. -/
theorem dn_number_none_idx (h : List HNode) : _dn_number h none = none := by
  unfold _dn_number
  cases dnVagga h <;> rfl

theorem mn_number_none_idx (h : List HNode) : _mn_number h none = none := by
  unfold _mn_number
  dsimp only
  split <;> simp_all

theorem sn_number_none_idx (h : List HNode) : _sn_number h none = none := by
  unfold _sn_number
  dsimp only
  split <;> simp_all

theorem an_number_none_idx (h : List HNode) : _an_number h none = none := by
  unfold _an_number
  dsimp only
  split <;> simp_all


/-- C6: `attach_canonical` is total (it is a Lean function, every branch
of every helper flowing a missing intermediate value through `Option`),
and whenever a required intermediate value is missing — the sub-heading
hint unparsable, the collection not one of DN/MN/SN/AN, or the
collection's resolver finding no matching ancestor — the document is
returned entirely unchanged: its canonical-reference fields remain null
and no guessed default is produced. -/
theorem c6_attach_total (doc : TipDoc) :
    (_int_from_subhead doc.subhead = none → attach_canonical doc = doc) ∧
    (doc.collection ≠ some "DN" → doc.collection ≠ some "MN" →
     doc.collection ≠ some "SN" → doc.collection ≠ some "AN" →
      attach_canonical doc = doc) ∧
    (doc.collection = some "DN" →
      _dn_number doc.hierarchy (_int_from_subhead doc.subhead) = none →
      attach_canonical doc = doc) ∧
    (doc.collection = some "MN" →
      _mn_number doc.hierarchy (_int_from_subhead doc.subhead) = none →
      attach_canonical doc = doc) ∧
    (doc.collection = some "SN" →
      _sn_number doc.hierarchy (_int_from_subhead doc.subhead) = none →
      attach_canonical doc = doc) ∧
    (doc.collection = some "AN" →
      _an_number doc.hierarchy (_int_from_subhead doc.subhead) = none →
      attach_canonical doc = doc) := by
  refine ⟨fun hs => ?_, fun h1 h2 h3 h4 => ?_, fun hc hn => ?_, fun hc hn => ?_,
          fun hc hn => ?_, fun hc hn => ?_⟩
  · simp only [attach_canonical, hs, dn_number_none_idx, mn_number_none_idx,
      sn_number_none_idx, an_number_none_idx]
    split <;> first | rfl | (split <;> first | rfl | (split <;> first | rfl | (split <;> rfl)))
  · simp only [attach_canonical]
    rw [if_neg h1, if_neg h2, if_neg h3, if_neg h4]
  · simp [attach_canonical, hc, hn]
  · simp [attach_canonical, hc, hn]
  · simp [attach_canonical, hc, hn]
  · simp [attach_canonical, hc, hn]

/-- C6 (witness): a DN document whose hierarchy has no `dn1`/`dn2`/`dn3`
ancestor keeps null canonical fields; a document with an unparsable
hint is unchanged as well. -/
theorem c6_attach_total_witness :
    attach_canonical
        ⟨none, some "DN", "mula", none, none, none, some "5. Sutta",
         [⟨some "book", some "xx", none⟩], none, none, none, "d", "s", 1, none,
         none, [], "pi-Latn", "t", "<p/>", "f", "p"⟩ =
      ⟨none, some "DN", "mula", none, none, none, some "5. Sutta",
       [⟨some "book", some "xx", none⟩], none, none, none, "d", "s", 1, none,
       none, [], "pi-Latn", "t", "<p/>", "f", "p"⟩ ∧
    attach_canonical
        ⟨none, some "SN", "mula", none, none, none, some "x", [], none, none,
         none, "d", "s", 1, none, none, [], "pi-Latn", "t", "<p/>", "f", "p"⟩ =
      ⟨none, some "SN", "mula", none, none, none, some "x", [], none, none,
       none, "d", "s", 1, none, none, [], "pi-Latn", "t", "<p/>", "f", "p"⟩ :=
  ⟨(c6_attach_total
      ⟨none, some "DN", "mula", none, none, none, some "5. Sutta",
       [⟨some "book", some "xx", none⟩], none, none, none, "d", "s", 1, none,
       none, [], "pi-Latn", "t", "<p/>", "f", "p"⟩).2.2.1 rfl (by decide),
   (c6_attach_total
      ⟨none, some "SN", "mula", none, none, none, some "x", [], none, none,
       none, "d", "s", 1, none, none, [], "pi-Latn", "t", "<p/>", "f", "p"⟩).1
      (by decide)⟩

theorem attach_canonical_text (d : TipDoc) : (attach_canonical d).text = d.text := by
  unfold attach_canonical
  dsimp only
  split
  · split
    · split <;> rfl
    · rfl
  · split
    · split
      · split <;> rfl
      · rfl
    · split
      · split
        · split <;> rfl
        · rfl
      · split
        · split
          · split <;> rfl
          · rfl
        · rfl

/-! ## Claim C8 -/

/-- C8: in the paragraph loop of `docs_from_file`, every paragraph whose
text is non-empty after number-stripping produces exactly one extracted
document (in order, with exactly the cleaned text), and every paragraph
whose cleaned text is empty produces none; and when a paragraph number
is known, one leading occurrence of the number (optionally followed by a
single punctuation/dot/bullet character and whitespace) is stripped
exactly once — a second occurrence survives, as in
`"5. 5. Cats" ↦ "5. Cats"`. -/
theorem c8_paragraph_roundtrip :
    (∀ (env : LeafEnv) (items : List LeafItem) (order : Nat) (pending : List PbMark),
      (paragraphDocs env items order pending).map (fun d => d.text) =
        ((items.filterMap fun it =>
            match it with
            | .par p => some p
            | .pb _ _ => none).map fun p => (clean_paragraph_text p).2).filter
          (fun t => !(t == ""))) ∧
    clean_paragraph_text ⟨some "5", [], "5. 5. Cats", none, "<p>"⟩ = (some "5", "5. Cats") := by
  constructor
  · intro env items
    induction items with
    | nil => intro order pending; rfl
    | cons it rest ih =>
        intro order pending
        cases it with
        | pb ed n => simp only [paragraphDocs, List.filterMap_cons, ih]
        | par p =>
            by_cases h : (clean_paragraph_text p).2 = ""
            · simp [paragraphDocs, h, ih]
            · simp [paragraphDocs, h, ih, mkParaDoc, attach_canonical_text]
  · decide

/-! ## Claim C9 -/

/-- C9: the category classifier applies its fallbacks in order — banner
table, then division-identifier prefixes, then filename prefixes with
the same tables.  If the banner yields nothing, no ancestor division id
matches the prefix table and the filename does not match either, the
resulting basket is exactly "extracanonical" and the collection stays
null.  A banner match that resolves both basket and collection
short-circuits the remaining fallbacks.  When the banner fails, the
first matching ancestor division id (a sutta prefix, tables tried
first-match-wins in pattern order) resolves collection and basket
before the filename is consulted.  When banner and ancestors both fail,
the filename prefix resolves through the same three tables: a sutta
prefix sets basket "sutta" and the collection, VIN/BD set basket
"vinaya", ABH sets basket "abhidhamma" (collection stays null for the
latter two). -/
theorem c9_classifier_fallbacks :
    (∀ (vals : List String) (ancIds : List String) (path : String),
      (infer_banner vals).1 = none → (infer_banner vals).2.1 = none →
      (∀ did ∈ ancIds, collReMatch (pyLower did) = none) →
      collReMatch (pyLower (pyBasename path)) = none →
      classifyFallbacks (infer_banner vals).1 (infer_banner vals).2.1 ancIds path =
        (some "extracanonical", none)) ∧
    (∀ (b c : String) (ancIds : List String) (path : String), b ≠ "" → c ≠ "" →
      classifyFallbacks (some b) (some c) ancIds path = (some b, some c)) ∧
    (∀ (ancIds : List String) (path : String) (pref : String),
      ancIds.findSome? (fun did => collReMatch (pyLower did)) = some pref →
      suttaPrefs.contains (pyUpper pref) →
      classifyFallbacks none none ancIds path = (some "sutta", some (pyUpper pref))) ∧
    (∀ (ancIds : List String) (path pref : String),
      (∀ did ∈ ancIds, collReMatch (pyLower did) = none) →
      collReMatch (pyLower (pyBasename path)) = some pref →
      suttaPrefs.contains (pyUpper pref) →
      classifyFallbacks none none ancIds path = (some "sutta", some (pyUpper pref))) ∧
    (∀ (ancIds : List String) (path pref : String),
      (∀ did ∈ ancIds, collReMatch (pyLower did) = none) →
      collReMatch (pyLower (pyBasename path)) = some pref →
      pyUpper pref = "VIN" ∨ pyUpper pref = "BD" →
      classifyFallbacks none none ancIds path = (some "vinaya", none)) ∧
    (∀ (ancIds : List String) (path pref : String),
      (∀ did ∈ ancIds, collReMatch (pyLower did) = none) →
      collReMatch (pyLower (pyBasename path)) = some pref →
      pyUpper pref = "ABH" →
      classifyFallbacks none none ancIds path = (some "abhidhamma", none)) := by
  refine ⟨fun vals ancIds path hb1 hb2 hanc hfile => ?_,
          fun b c ancIds path hb hc => ?_,
          fun ancIds path pref hfind hpref => ?_,
          fun ancIds path pref hanc hfile hpref => ?_,
          fun ancIds path pref hanc hfile hpref => ?_,
          fun ancIds path pref hanc hfile hpref => ?_⟩
  · rw [hb1, hb2]
    have hfs : ancIds.findSome? (fun did => collReMatch (pyLower did)) = none := by
      rw [List.findSome?_eq_none_iff]
      exact hanc
    simp [classifyFallbacks, opTruthy, hfs, hfile]
  · have hbt : opTruthy (some b) = true := by simp [opTruthy, hb]
    have hct : opTruthy (some c) = true := by simp [opTruthy, hc]
    simp [classifyFallbacks, hbt, hct]
  · have hmem : pyUpper pref ∈ suttaPrefs := by simpa using hpref
    have hne : pyUpper pref ≠ "" := by
      have h13 := hmem
      simp only [suttaPrefs, List.mem_cons, List.not_mem_nil, or_false] at h13
      rcases h13 with h | h | h | h | h | h | h | h | h | h | h | h | h <;>
        rw [h] <;> decide
    simp [classifyFallbacks, opTruthy, hfind, hmem, hne, pyOrD]
  · have hfs : ancIds.findSome? (fun did => collReMatch (pyLower did)) = none := by
      rw [List.findSome?_eq_none_iff]
      exact hanc
    have hmem : pyUpper pref ∈ suttaPrefs := by simpa using hpref
    simp [classifyFallbacks, opTruthy, hfs, hfile, hmem, pyOrD]
  · have hfs : ancIds.findSome? (fun did => collReMatch (pyLower did)) = none := by
      rw [List.findSome?_eq_none_iff]
      exact hanc
    rcases hpref with h | h <;>
      simp [classifyFallbacks, opTruthy, hfs, hfile, h, suttaPrefs]
  · have hfs : ancIds.findSome? (fun did => collReMatch (pyLower did)) = none := by
      rw [List.findSome?_eq_none_iff]
      exact hanc
    simp [classifyFallbacks, opTruthy, hfs, hfile, hpref, suttaPrefs]

/-- C9 (witness): nothing matches for banner text "nothing", ancestor id
"zzz" and filename "zzz.xml": the basket defaults to "extracanonical"
with a null collection.  With banner and ancestors still failing but
filename "dn1.mul.xml", the filename fallback resolves
("sutta", "DN"). -/
theorem c9_classifier_fallbacks_witness :
    classifyFallbacks (infer_banner ["nothing"]).1 (infer_banner ["nothing"]).2.1
        ["zzz"] "dir/zzz.xml" = (some "extracanonical", none) ∧
    classifyFallbacks none none ["zzz"] "dir/dn1.mul.xml" = (some "sutta", some "DN") := by
  constructor
  · exact c9_classifier_fallbacks.1 ["nothing"] ["zzz"] "dir/zzz.xml"
      (by decide) (by decide) (by decide) (by decide)
  · have h := c9_classifier_fallbacks.2.2.2.1 ["zzz"] "dir/dn1.mul.xml" "dn"
      (by decide) (by decide) (by decide)
    exact h.trans (by decide)
